import Mathlib

/-!
Verification development for the cursor-island hook scripts
(`cursor-island-state.py` and `pi-island-state.py`).

The two scripts are shallowly embedded here:

* JSON values are modelled by the inductive `JVal`.  JSON numbers are kept
  exact as a decimal mantissa and exponent (`num m e` denotes `m * 10 ^ e`);
  the scripts never inspect numeric values beyond Python truthiness, so the
  float rounding performed by Python is irrelevant.  The non-finite constants
  `NaN`, `Infinity` and `-Infinity` accepted by `json.loads` are modelled by
  `fconst`.  Unicode escapes are decoded with `Char.ofNat`; surrogate-pair
  recombination is outside the model (no claim touches it).
* `json_loads` models Python `json.loads` (strict mode defaults): optional
  surrounding whitespace, exactly one value, objects/arrays/strings/numbers
  and the literals `true`, `false`, `null`, plus the non-finite constants.
  Duplicate object keys overwrite in insertion order, like a Python dict.
* Raising a Python exception is modelled by `Except.error ()`; a function
  that cannot raise is pure.
* A Python dict with optional keys is modelled by `SessionState`, whose
  always-present keys are plain fields and whose conditionally-set keys are
  `Option` fields (`some JVal.null` models a key present with value `None`,
  which is distinct from an absent key).
-/

/-- A JSON value as produced by Python `json.loads`. -/
inductive JVal where
  | null : JVal
  | bool : Bool → JVal
  | num : Int → Int → JVal
  | fconst : Nat → JVal
  | str : String → JVal
  | arr : List JVal → JVal
  | obj : List (String × JVal) → JVal

/-- Python truthiness of a JSON value. -/
def JVal.truthy : JVal → Bool
  | JVal.null => false
  | JVal.bool b => b
  | JVal.num m _ => !(m == 0)
  | JVal.fconst _ => true
  | JVal.str s => !(s.data.isEmpty)
  | JVal.arr xs => !(xs.isEmpty)
  | JVal.obj ps => !(ps.isEmpty)

def JVal.isObj : JVal → Bool
  | JVal.obj _ => true
  | _ => false

def JVal.isArr : JVal → Bool
  | JVal.arr _ => true
  | _ => false

def JVal.isStr : JVal → Bool
  | JVal.str _ => true
  | _ => false

/-- Python `==` against a string literal: only a string value can compare equal. -/
def jstrEq (v : JVal) (s : String) : Bool :=
  match v with
  | JVal.str t => t == s
  | _ => false

/-- Dictionary lookup (keys are unique because insertion overwrites). -/
def jget (kvs : List (String × JVal)) (k : String) : Option JVal :=
  (kvs.find? (fun p => p.1 == k)).map (fun p => p.2)

/-- Python dict insertion: overwrite in place, else append (preserving order). -/
def upsert (d : List (String × JVal)) (k : String) (v : JVal) : List (String × JVal) :=
  if d.any (fun p => p.1 == k) then
    d.map (fun p => if p.1 == k then (k, v) else p)
  else d ++ [(k, v)]

/-- Python `dict.get(k, default)`. -/
def dget (kvs : List (String × JVal)) (k : String) (d : JVal) : JVal :=
  (jget kvs k).getD d

/-- Python `a or b`. -/
def pyOr (a b : JVal) : JVal := if a.truthy then a else b

/- Characters that would confuse a source scanner are spelled by code point. -/
def quoteC : Char := Char.ofNat 34
def backC : Char := Char.ofNat 92
def lbrace : Char := Char.ofNat 123
def rbrace : Char := Char.ofNat 125

/-- JSON inter-token whitespace accepted by Python `json.loads`. -/
def isWs (c : Char) : Bool :=
  c = ' ' || c = Char.ofNat 9 || c = Char.ofNat 10 || c = Char.ofNat 13

def skipWs : List Char → List Char
  | [] => []
  | c :: cs => if isWs c then skipWs cs else c :: cs

def isDigitC (c : Char) : Bool := '0' ≤ c && c ≤ '9'

def hexVal (c : Char) : Option Nat :=
  if '0' ≤ c ∧ c ≤ '9' then some (c.toNat - 48)
  else if 'a' ≤ c ∧ c ≤ 'f' then some (c.toNat - 87)
  else if 'A' ≤ c ∧ c ≤ 'F' then some (c.toNat - 55)
  else none

/-- Body of a JSON string literal, after the opening quote.  Returns the
decoded characters and the remaining input after the closing quote.
Strict mode: raw control characters below 0x20 are rejected. -/
def parseStringBody : List Char → Option (List Char × List Char)
  | [] => none
  | c :: cs =>
    if c = quoteC then some ([], cs)
    else if c = backC then
      match cs with
      | [] => none
      | e :: cs2 =>
        if e = quoteC then (parseStringBody cs2).map (fun p => (quoteC :: p.1, p.2))
        else if e = backC then (parseStringBody cs2).map (fun p => (backC :: p.1, p.2))
        else if e = '/' then (parseStringBody cs2).map (fun p => ('/' :: p.1, p.2))
        else if e = 'b' then (parseStringBody cs2).map (fun p => (Char.ofNat 8 :: p.1, p.2))
        else if e = 'f' then (parseStringBody cs2).map (fun p => (Char.ofNat 12 :: p.1, p.2))
        else if e = 'n' then (parseStringBody cs2).map (fun p => (Char.ofNat 10 :: p.1, p.2))
        else if e = 'r' then (parseStringBody cs2).map (fun p => (Char.ofNat 13 :: p.1, p.2))
        else if e = 't' then (parseStringBody cs2).map (fun p => (Char.ofNat 9 :: p.1, p.2))
        else if e = 'u' then
          match cs2 with
          | a :: b :: c3 :: d :: cs3 =>
            match hexVal a, hexVal b, hexVal c3, hexVal d with
            | some ha, some hb, some hc, some hd =>
              (parseStringBody cs3).map
                (fun p => (Char.ofNat (((ha * 16 + hb) * 16 + hc) * 16 + hd) :: p.1, p.2))
            | _, _, _, _ => none
          | _ => none
        else none
    else if c.toNat < 32 then none
    else (parseStringBody cs).map (fun p => (c :: p.1, p.2))

def digitsVal (ds : List Char) : Nat := ds.foldl (fun n c => n * 10 + (c.toNat - 48)) 0

/-- Optional exponent part; backtracks (consumes nothing) when the `e` is not
followed by at least one digit, matching the optional regex group used by
Python. -/
def parseExp (cs : List Char) : Int × List Char :=
  match cs with
  | [] => (0, cs)
  | e :: r =>
    if e = 'e' ∨ e = 'E' then
      let (esign, r2) :=
        match r with
        | [] => ((1 : Int), r)
        | s :: r3 => if s = '+' then ((1 : Int), r3) else if s = '-' then ((-1 : Int), r3) else ((1 : Int), r)
      let ds := r2.takeWhile isDigitC
      if ds.isEmpty then (0, cs) else (esign * Int.ofNat (digitsVal ds), r2.dropWhile isDigitC)
    else (0, cs)

/-- Optional fraction part; backtracks when the dot is not followed by a digit. -/
def parseFrac (cs : List Char) : List Char × List Char :=
  match cs with
  | '.' :: r =>
    let f := r.takeWhile isDigitC
    if f.isEmpty then ([], cs) else (f, r.dropWhile isDigitC)
  | _ => ([], cs)

/-- JSON number, following the regex `-?(0|[1-9][0-9]*)(\.[0-9]+)?([eE][+-]?[0-9]+)?`. -/
def parseNumber (cs : List Char) : Option (JVal × List Char) :=
  let (neg, cs1) :=
    match cs with
    | c :: rest => if c = '-' then (true, rest) else (false, cs)
    | [] => (false, cs)
  match cs1 with
  | [] => none
  | c :: rest =>
    let intRes : Option (List Char × List Char) :=
      if c = '0' then some ([c], rest)
      else if isDigitC c then some (c :: rest.takeWhile isDigitC, rest.dropWhile isDigitC)
      else none
    match intRes with
    | none => none
    | some (intDigits, after) =>
      let (fracDigits, cs2) := parseFrac after
      let (expVal, cs3) := parseExp cs2
      let mant0 : Int := Int.ofNat (digitsVal (intDigits ++ fracDigits))
      let mant := if neg then -mant0 else mant0
      some (JVal.num mant (expVal - Int.ofNat fracDigits.length), cs3)

/-- Rebuild a Python dict from parsed members: sequential insertion with
overwrite-in-place semantics. -/
def mkDict (ps : List (String × JVal)) : List (String × JVal) :=
  ps.foldl (fun d p => upsert d p.1 p.2) []

/-- The non-recursive leaf values: the three literals, the non-finite
constants, and numbers. -/
def parseAtom (cs : List Char) : Option (JVal × List Char) :=
  match cs with
  | 't' :: 'r' :: 'u' :: 'e' :: r => some (JVal.bool true, r)
  | 'f' :: 'a' :: 'l' :: 's' :: 'e' :: r => some (JVal.bool false, r)
  | 'n' :: 'u' :: 'l' :: 'l' :: r => some (JVal.null, r)
  | 'N' :: 'a' :: 'N' :: r => some (JVal.fconst 0, r)
  | 'I' :: 'n' :: 'f' :: 'i' :: 'n' :: 'i' :: 't' :: 'y' :: r => some (JVal.fconst 1, r)
  | '-' :: 'I' :: 'n' :: 'f' :: 'i' :: 'n' :: 'i' :: 't' :: 'y' :: r => some (JVal.fconst 2, r)
  | _ => parseNumber cs

mutual

/-- One JSON value at the head of the input (no leading whitespace). -/
def parseValue : Nat → List Char → Option (JVal × List Char)
  | 0, _ => none
  | fuel + 1, cs =>
    match cs with
    | [] => none
    | c :: rest =>
      if c = quoteC then (parseStringBody rest).map (fun p => (JVal.str (String.mk p.1), p.2))
      else if c = lbrace then (parseObjRest fuel rest).map (fun p => (JVal.obj (mkDict p.1), p.2))
      else if c = '[' then (parseArrRest fuel rest).map (fun p => (JVal.arr p.1, p.2))
      else parseAtom cs

/-- Object members after the opening brace. -/
def parseObjRest : Nat → List Char → Option (List (String × JVal) × List Char)
  | 0, _ => none
  | fuel + 1, cs =>
    match skipWs cs with
    | [] => none
    | c :: rest =>
      if c = rbrace then some ([], rest)
      else parseMembers fuel (c :: rest)

/-- One or more `"key": value` members separated by commas. -/
def parseMembers : Nat → List Char → Option (List (String × JVal) × List Char)
  | 0, _ => none
  | fuel + 1, cs =>
    match cs with
    | [] => none
    | c :: rest =>
      if c = quoteC then
        match parseStringBody rest with
        | none => none
        | some (key, r1) =>
          match skipWs r1 with
          | ':' :: r2 =>
            match parseValue fuel (skipWs r2) with
            | none => none
            | some (v, r3) =>
              match skipWs r3 with
              | c2 :: r4 =>
                if c2 = rbrace then some ([(String.mk key, v)], r4)
                else if c2 = ',' then
                  match parseMembers fuel (skipWs r4) with
                  | none => none
                  | some (ms, r5) => some ((String.mk key, v) :: ms, r5)
                else none
              | [] => none
          | _ => none
      else none

/-- Array items after the opening bracket. -/
def parseArrRest : Nat → List Char → Option (List JVal × List Char)
  | 0, _ => none
  | fuel + 1, cs =>
    match skipWs cs with
    | [] => none
    | c :: rest =>
      if c = ']' then some ([], rest)
      else parseArrItems fuel (c :: rest)

/-- One or more array items separated by commas. -/
def parseArrItems : Nat → List Char → Option (List JVal × List Char)
  | 0, _ => none
  | fuel + 1, cs =>
    match parseValue fuel cs with
    | none => none
    | some (v, r1) =>
      match skipWs r1 with
      | c :: r2 =>
        if c = ']' then some ([v], r2)
        else if c = ',' then
          match parseArrItems fuel (skipWs r2) with
          | none => none
          | some (vs, r3) => some (v :: vs, r3)
        else none
      | [] => none

end

/-- Python `json.loads`: one JSON value, optionally surrounded by whitespace;
any other trailing data is an error.  The fuel `cs.length + 8` is strictly
larger than the number of recursive calls any parse can make. -/
def json_loads (cs : List Char) : Option JVal :=
  match parseValue (cs.length + 8) (skipWs cs) with
  | some (v, rest) => if skipWs rest = [] then some v else none
  | none => none

/-! ## The Extractor: `parse_input` (identical in both scripts) -/

/-- Index of the first occurrence of a character (`str.find`), `none` for -1. -/
def firstIdx (l : List Char) (c : Char) : Option Nat :=
  match l with
  | [] => none
  | x :: xs => if x = c then some 0 else (firstIdx xs c).map (fun i => i + 1)

/-- Index of the last occurrence of a character (`str.rfind`), `none` for -1. -/
def lastIdx (l : List Char) (c : Char) : Option Nat :=
  match l with
  | [] => none
  | x :: xs =>
    match lastIdx xs c with
    | some i => some (i + 1)
    | none => if x = c then some 0 else none

/-- Python slice `raw[a:b]`. -/
def sliceList (raw : List Char) (a b : Nat) : List Char := (raw.drop a).take (b - a)

/-- Strategy 2: parse the slice from the first brace to the last closing
brace, when the first precedes the last. -/
def stage2 (raw : List Char) : Option JVal :=
  match firstIdx raw lbrace, lastIdx raw rbrace with
  | some s, some e => if s < e then json_loads (sliceList raw s (e + 1)) else none
  | _, _ => none

/-- Strategy 3 loop body.  `acc` holds the scanned characters in reverse, so
`acc.reverse` is the Python slice `raw[start:i+1]` when the loop breaks at
index `i`.  The `continue`-laden Python loop becomes an if-chain whose guards
fire in the same order; the `escape` flag is necessarily false at the quote
test, exactly as in the source. -/
def scan3_loop (acc : List Char) (depth : Int) (inS esc : Bool) : List Char → Option JVal
  | [] => none
  | c :: cs =>
    if esc then scan3_loop (c :: acc) depth inS false cs
    else if c = backC then scan3_loop (c :: acc) depth inS true cs
    else if c = quoteC then scan3_loop (c :: acc) depth (!inS) esc cs
    else if inS then scan3_loop (c :: acc) depth inS esc cs
    else if c = lbrace then scan3_loop (c :: acc) (depth + 1) inS esc cs
    else if c = rbrace then
      if depth - 1 = 0 then json_loads (c :: acc).reverse
      else scan3_loop (c :: acc) (depth - 1) inS esc cs
    else scan3_loop (c :: acc) depth inS esc cs

/-- Strategy 3: the depth-balanced scan starting at index `start`. -/
def stage3 (raw : List Char) (start : Nat) : Option JVal :=
  scan3_loop [] 0 false false (raw.drop start)

/-- `parse_input`: best-effort JSON extraction, three strategies in order.
A successful direct parse returns immediately, so a parsed JSON `null`
(Python `None`) is returned by strategy 1 and never reaches the fallbacks. -/
def parse_input (raw : List Char) : Option JVal :=
  match json_loads raw with
  | some v => some v
  | none =>
    match firstIdx raw lbrace with
    | none => none
    | some start =>
      match stage2 raw with
      | some v => some v
      | none => stage3 raw start

/-! ## Spec-side description of the depth-balanced scan

These definitions are written from the claim text, for comparison with the
embedded code of strategy 3. -/

/-- Scanner state of the specified depth-balanced scan. -/
structure ScanSt where
  depth : Int
  inString : Bool
  escaped : Bool

/-- Modelled from the spec: one character of the scan.  A quote toggles the
string context unless escaped by a preceding unescaped backslash; braces
inside string literals are not counted. -/
def scanStep (st : ScanSt) (c : Char) : ScanSt :=
  if st.escaped then { st with escaped := false }
  else if c = backC then { st with escaped := true }
  else if c = quoteC then { st with inString := !st.inString }
  else if st.inString then st
  else if c = lbrace then { st with depth := st.depth + 1 }
  else if c = rbrace then { st with depth := st.depth - 1 }
  else st

/-- Modelled from the spec: the index at which the scan first brings the
nesting depth from one back to zero. -/
def balancedEnd (st : ScanSt) : List Char → Option Nat
  | [] => none
  | c :: cs =>
    let st2 := scanStep st c
    if st.depth = 1 ∧ st2.depth = 0 then some 0
    else (balancedEnd st2 cs).map (fun j => j + 1)

/-- Modelled from the spec: scan `tail` (which begins at the first brace),
and on first reaching depth zero parse exactly that prefix; a parse failure
is final. -/
def specBalanced (tail : List Char) : Option JVal :=
  match balancedEnd ⟨0, false, false⟩ tail with
  | some j => json_loads (tail.take (j + 1))
  | none => none

/-! ## The Normalizer

`main` of each script, after the `None` check on the extractor result.
Raising is `Except.error ()`; on a non-dict value the first `data.get`
attribute access raises, so the normalizers match on the object shape up
front.  Keys that `main` always sets are plain fields of `SessionState`;
keys set conditionally are `Option` fields. -/

/-- The normalized record built by `main` (the Python `state` dict). -/
structure SessionState where
  session_id : JVal
  cwd : JVal
  event : JVal
  agent_type : String
  status : String
  transcript_path : Option JVal
  tool : Option JVal
  tool_input : Option JVal
  tool_use_id : Option JVal
  tool_display : Option String

/-- The initial `state` dict literal, together with the conditional
`transcript_path` assignment that precedes the event chain. -/
def base_state (agent : String) (sid cwd ev tp : JVal) : SessionState :=
  { session_id := sid, cwd := cwd, event := ev, agent_type := agent,
    status := "unknown",
    transcript_path := if tp.truthy then some tp else none,
    tool := none, tool_input := none, tool_use_id := none, tool_display := none }

/-- Python `x[0]`: first element of a list, first character of a string
(as a one-character string); anything else raises. -/
def pySub0 (v : JVal) : Except Unit JVal :=
  match v with
  | JVal.arr (x :: _) => Except.ok x
  | JVal.str s =>
    match s.data with
    | c :: _ => Except.ok (JVal.str (String.mk [c]))
    | [] => Except.error ()
  | _ => Except.error ()

/-- Lines 98-103 of either script: a string-valued `tool_input` is parsed as
nested JSON inside a try, defaulting to an empty dict on the empty string or
a parse failure; any other value passes through. -/
def resolve_tool_input (v : JVal) : JVal :=
  match v with
  | JVal.str s =>
    if s = "" then JVal.obj []
    else
      match json_loads s.data with
      | some j => j
      | none => JVal.obj []
  | _ => v

/- Field resolution shared by both profiles (identical source lines). -/
def ev_of (kvs : List (String × JVal)) : JVal := dget kvs "hook_event_name" (JVal.str "")
def tn_of (kvs : List (String × JVal)) : JVal := dget kvs "tool_name" JVal.null
def ti_of (kvs : List (String × JVal)) : JVal :=
  resolve_tool_input (dget kvs "tool_input" (JVal.obj []))
def tui_of (kvs : List (String × JVal)) : JVal := dget kvs "tool_use_id" (JVal.str "")
def wr_of (kvs : List (String × JVal)) : JVal :=
  pyOr (dget kvs "workspace_roots" JVal.null) (JVal.arr [])

/- Cursor-profile field resolution. -/
def cursor_sid (kvs : List (String × JVal)) : JVal :=
  pyOr (pyOr (dget kvs "conversation_id" JVal.null) (dget kvs "session_id" JVal.null))
    (JVal.str "unknown")
def tp0_of (kvs : List (String × JVal)) : JVal := dget kvs "transcript_path" (JVal.str "")

def strEndsWith (s t : String) : Bool := List.isSuffixOf t.data s.data
def strDropRight (s : String) (n : Nat) : String := String.mk (s.data.take (s.data.length - n))

/-- Cursor lines 106-108: a truthy `transcript_path` must support `endswith`
(only a string does, otherwise `AttributeError`); a `.txt` suffix is
rewritten to `.jsonl`. -/
def cursor_transcript (v : JVal) : Except Unit JVal :=
  if v.truthy then
    match v with
    | JVal.str s =>
      Except.ok (JVal.str (if strEndsWith s ".txt" then strDropRight s 4 ++ ".jsonl" else s))
    | _ => Except.error ()
  else Except.ok v

/- Pi-profile field resolution. -/
def cwd0_of (kvs : List (String × JVal)) : JVal := dget kvs "cwd" JVal.null
def rawsid_of (kvs : List (String × JVal)) : JVal :=
  pyOr (dget kvs "session_id" JVal.null) (JVal.str "")

def isSlashStr (v : JVal) : Bool :=
  match v with
  | JVal.str s => s == "/"
  | _ => false

/-- Whether the container holds a `/` (substring of a string, element of a
list, key of a dict). -/
def jvalHasSlash (v : JVal) : Bool :=
  match v with
  | JVal.str s => s.data.contains '/'
  | JVal.arr xs => xs.any isSlashStr
  | JVal.obj ps => ps.any (fun p => p.1 == "/")
  | _ => false

/-- Python `"/" in v`: containment test, a `TypeError` on non-iterables. -/
def pyContains (v : JVal) : Except Unit Bool :=
  match v with
  | JVal.str _ => Except.ok (jvalHasSlash v)
  | JVal.arr _ => Except.ok (jvalHasSlash v)
  | JVal.obj _ => Except.ok (jvalHasSlash v)
  | _ => Except.error ()

/-- `os.path.basename` on the character list of a posix path. -/
def afterLastSlash (l : List Char) : List Char :=
  l.foldl (fun acc c => if c = '/' then [] else acc ++ [c]) []

/-- `basename.split("_", 1)`: the part after the first underscore, when any. -/
def afterFirstUnderscore : List Char → Option (List Char)
  | [] => none
  | c :: cs => if c = '_' then some cs else afterFirstUnderscore cs

def stripJsonl (l : List Char) : List Char :=
  if List.isSuffixOf (".jsonl".data) l then l.take (l.length - 6) else l

/-- Pi lines 107-120: when the raw session id is truthy and contains a path
separator, it is used as the transcript path and the identifier is the part
of the basename after the timestamp prefix.  `"/" in x` raises on
non-iterables and `os.path.basename` raises on non-strings.  Returns
`(session_id before the sentinel check, transcript_path)`. -/
def pi_session_path (v : JVal) : Except Unit (JVal × JVal) :=
  if v.truthy then
    match pyContains v with
    | Except.error e => Except.error e
    | Except.ok b =>
      if b then
        match v with
        | JVal.str s =>
          let bn := stripJsonl (afterLastSlash s.data)
          let sid := match afterFirstUnderscore bn with
            | some t => t
            | none => bn
          Except.ok (JVal.str (String.mk sid), JVal.str s)
        | _ => Except.error ()
      else Except.ok (v, JVal.str "")
  else Except.ok (v, JVal.str "")

/-- Pi lines 122-123: an empty or `"ephemeral"` identifier becomes `"unknown"`. -/
def pi_sentinel (v : JVal) : JVal :=
  if !v.truthy || jstrEq v "ephemeral" then JVal.str "unknown" else v

/-- Cursor lines 125-163: the event chain.  `data.get("tool_name")` is
hoisted into the argument `tn`; the hoisting is observationally identical
because `data` is known to be a dict whenever the chain runs. -/
def applyEvent_cursor (ev tn ti tui : JVal) (st : SessionState) : SessionState :=
  if jstrEq ev "beforeSubmitPrompt" then { st with status := "processing" }
  else if jstrEq ev "preToolUse" then
    { st with
      status := "running_tool", tool := some tn, tool_input := some ti,
      tool_use_id := if tui.truthy then some tui else none,
      tool_display := if jstrEq tn "Shell" then some "Bash" else none }
  else if jstrEq ev "postToolUse" then
    { st with
      status := "processing", tool := some tn, tool_input := some ti,
      tool_use_id := if tui.truthy then some tui else none,
      tool_display := if jstrEq tn "Shell" then some "Bash" else none }
  else if jstrEq ev "stop" then { st with status := "waiting_for_input" }
  else if jstrEq ev "subagentStop" then { st with status := "waiting_for_input" }
  else if jstrEq ev "sessionStart" then { st with status := "waiting_for_input" }
  else if jstrEq ev "sessionEnd" then { st with status := "ended" }
  else if jstrEq ev "preCompact" then { st with status := "compacting" }
  else { st with status := "unknown" }

/-- Pi lines 140-178: the event chain of the pi script, transcribed
separately so that agreement with the cursor chain is a theorem rather than
a definition. -/
def applyEvent_pi (ev tn ti tui : JVal) (st : SessionState) : SessionState :=
  if jstrEq ev "beforeSubmitPrompt" then { st with status := "processing" }
  else if jstrEq ev "preToolUse" then
    { st with
      status := "running_tool", tool := some tn, tool_input := some ti,
      tool_use_id := if tui.truthy then some tui else none,
      tool_display := if jstrEq tn "Shell" then some "Bash" else none }
  else if jstrEq ev "postToolUse" then
    { st with
      status := "processing", tool := some tn, tool_input := some ti,
      tool_use_id := if tui.truthy then some tui else none,
      tool_display := if jstrEq tn "Shell" then some "Bash" else none }
  else if jstrEq ev "stop" then { st with status := "waiting_for_input" }
  else if jstrEq ev "subagentStop" then { st with status := "waiting_for_input" }
  else if jstrEq ev "sessionStart" then { st with status := "waiting_for_input" }
  else if jstrEq ev "sessionEnd" then { st with status := "ended" }
  else if jstrEq ev "preCompact" then { st with status := "compacting" }
  else { st with status := "unknown" }

/-- Cursor `main` on a dict payload. -/
def normalize_cursor_obj (kvs : List (String × JVal)) : Except Unit SessionState :=
  match (if (wr_of kvs).truthy then pySub0 (wr_of kvs) else Except.ok (JVal.str "")) with
  | Except.error e => Except.error e
  | Except.ok cwd =>
    match cursor_transcript (tp0_of kvs) with
    | Except.error e => Except.error e
    | Except.ok tp =>
      Except.ok (applyEvent_cursor (ev_of kvs) (tn_of kvs) (ti_of kvs) (tui_of kvs)
        (base_state "cursor" (cursor_sid kvs) cwd (ev_of kvs) tp))

/-- Cursor `main` after the extractor: `data.get` on a non-dict raises. -/
def normalize_cursor (data : JVal) : Except Unit SessionState :=
  match data with
  | JVal.obj kvs => normalize_cursor_obj kvs
  | _ => Except.error ()

/-- Pi `main` on a dict payload. -/
def normalize_pi_obj (kvs : List (String × JVal)) : Except Unit SessionState :=
  match (if (cwd0_of kvs).truthy then Except.ok (cwd0_of kvs)
         else if (wr_of kvs).truthy then pySub0 (wr_of kvs) else Except.ok (JVal.str "")) with
  | Except.error e => Except.error e
  | Except.ok cwd =>
    match pi_session_path (rawsid_of kvs) with
    | Except.error e => Except.error e
    | Except.ok sp =>
      Except.ok (applyEvent_pi (ev_of kvs) (tn_of kvs) (ti_of kvs) (tui_of kvs)
        (base_state "pi" (pi_sentinel sp.1) cwd (ev_of kvs) sp.2))

/-- Pi `main` after the extractor. -/
def normalize_pi (data : JVal) : Except Unit SessionState :=
  match data with
  | JVal.obj kvs => normalize_pi_obj kvs
  | _ => Except.error ()

/-! ## The invocation wrapper

`sys.stderr` is redirected to `/dev/null` at import time, `send_event`
swallows every exception, and the `__main__` wrapper catches everything:
the process always exits 0 with empty stderr.  `print` is inside the try,
so the `\x7b\x7d` line is only written when `main` returns normally. -/

/-- Outcome of `main`: `error` means an uncaught exception inside `main`. -/
def cursor_main (raw : List Char) : Except Unit Unit :=
  match parse_input raw with
  | none => Except.ok ()
  | some JVal.null => Except.ok ()
  | some v =>
    match normalize_cursor v with
    | Except.ok _ => Except.ok ()
    | Except.error e => Except.error e

def pi_main (raw : List Char) : Except Unit Unit :=
  match parse_input raw with
  | none => Except.ok ()
  | some JVal.null => Except.ok ()
  | some v =>
    match normalize_pi v with
    | Except.ok _ => Except.ok ()
    | Except.error e => Except.error e

/-- Observable process outcome; stdout is the list of printed lines. -/
structure ProcResult where
  stdoutLines : List String
  exitCode : Nat
  stderr : String
deriving DecidableEq

def cursor_run (raw : List Char) : ProcResult :=
  match cursor_main raw with
  | Except.ok _ => { stdoutLines := ["\x7b\x7d"], exitCode := 0, stderr := "" }
  | Except.error _ => { stdoutLines := [], exitCode := 0, stderr := "" }

def pi_run (raw : List Char) : ProcResult :=
  match pi_main raw with
  | Except.ok _ => { stdoutLines := ["\x7b\x7d"], exitCode := 0, stderr := "" }
  | Except.error _ => { stdoutLines := [], exitCode := 0, stderr := "" }

/-- The status derivation table of the spec, on event strings. -/
def statusTable (e : String) : String :=
  if e = "beforeSubmitPrompt" then "processing"
  else if e = "preToolUse" then "running_tool"
  else if e = "postToolUse" then "processing"
  else if e = "stop" then "waiting_for_input"
  else if e = "subagentStop" then "waiting_for_input"
  else if e = "sessionStart" then "waiting_for_input"
  else if e = "sessionEnd" then "ended"
  else if e = "preCompact" then "compacting"
  else "unknown"

/-! ## Helper lemmas -/

lemma skipWs_not_ws {c : Char} {cs : List Char} (h : isWs c = false) :
    skipWs (c :: cs) = c :: cs := by
  unfold skipWs; rw [h]; simp

lemma parseValue_lbrace {f : Nat} {rest : List Char} {p : JVal × List Char}
    (h : parseValue (f + 1) (lbrace :: rest) = some p) : p.1.isObj = true := by
  rw [parseValue] at h
  rw [if_neg (by decide), if_pos rfl] at h
  cases hq : parseObjRest f rest with
  | none => rw [hq] at h; cases h
  | some q =>
    rw [hq] at h
    simp only [Option.map_some'] at h
    cases h
    rfl

lemma json_loads_lbrace_obj {cs : List Char} {v : JVal} (hh : cs.head? = some lbrace)
    (h : json_loads cs = some v) : v.isObj = true := by
  cases cs with
  | nil => cases hh
  | cons c rest =>
    simp only [List.head?_cons, Option.some.injEq] at hh
    subst hh
    unfold json_loads at h
    rw [skipWs_not_ws (by decide)] at h
    have e : (lbrace :: rest).length + 8 = ((lbrace :: rest).length + 7) + 1 := rfl
    rw [e] at h
    cases hpv : parseValue ((lbrace :: rest).length + 7 + 1) (lbrace :: rest) with
    | none => rw [hpv] at h; cases h
    | some p =>
      rw [hpv] at h
      have hobj := parseValue_lbrace hpv
      obtain ⟨pv, pr⟩ := p
      simp only at h
      by_cases hrest : skipWs pr = []
      · rw [if_pos hrest] at h; cases h; exact hobj
      · rw [if_neg hrest] at h; cases h

lemma firstIdx_head {l : List Char} {c : Char} {s : Nat} (h : firstIdx l c = some s) :
    (l.drop s).head? = some c := by
  induction l generalizing s with
  | nil => cases h
  | cons x xs ih =>
    unfold firstIdx at h
    by_cases hx : x = c
    · rw [if_pos hx] at h
      cases h
      simp [hx]
    · rw [if_neg hx] at h
      cases hi : firstIdx xs c with
      | none => rw [hi] at h; cases h
      | some i =>
        rw [hi] at h
        simp only [Option.map_some', Option.some.injEq] at h
        subst h
        simpa using ih hi

lemma head?_take_pos {l : List Char} {n : Nat} (hn : 0 < n) :
    (l.take n).head? = l.head? := by
  cases l with
  | nil => simp
  | cons x xs =>
    cases n with
    | zero => exact absurd hn (by omega)
    | succ m => simp

lemma rev_take_shift (acc : List Char) (c : Char) (xs : List Char) (j : Nat) :
    acc.reverse ++ (c :: xs).take (j + 1 + 1) = (c :: acc).reverse ++ xs.take (j + 1) := by
  simp

/-- The workhorse for claim C6: the embedded strategy-3 loop equals the
spec-side balanced scan from any intermediate state. -/
lemma scan3_loop_eq (cs : List Char) : ∀ (acc : List Char) (d : Int) (inS esc : Bool),
    scan3_loop acc d inS esc cs =
      (match balancedEnd ⟨d, inS, esc⟩ cs with
       | some j => json_loads (acc.reverse ++ cs.take (j + 1))
       | none => none) := by
  induction cs with
  | nil => intro acc d inS esc; rfl
  | cons c cs ih =>
    intro acc d inS esc
    unfold scan3_loop balancedEnd
    simp only [scanStep]
    by_cases hesc : esc = true
    · rw [if_pos hesc, if_pos hesc]
      rw [ih (c :: acc) d inS false]
      have hc : ¬(d = 1 ∧ d = 0) := by omega
      rw [if_neg hc]
      cases hbe : balancedEnd ⟨d, inS, false⟩ cs <;>
        simp [hbe, rev_take_shift]
    · rw [if_neg hesc, if_neg hesc]
      by_cases hb : c = backC
      · rw [if_pos hb, if_pos hb]
        rw [ih (c :: acc) d inS true]
        have hc : ¬(d = 1 ∧ d = 0) := by omega
        rw [if_neg hc]
        cases hbe : balancedEnd ⟨d, inS, true⟩ cs <;>
          simp [hbe, rev_take_shift]
      · rw [if_neg hb, if_neg hb]
        by_cases hq : c = quoteC
        · rw [if_pos hq, if_pos hq]
          rw [ih (c :: acc) d (!inS) esc]
          have hc : ¬(d = 1 ∧ d = 0) := by omega
          rw [if_neg hc]
          cases hbe : balancedEnd ⟨d, !inS, esc⟩ cs <;>
            simp [hbe, rev_take_shift]
        · rw [if_neg hq, if_neg hq]
          by_cases hs : inS = true
          · rw [if_pos hs, if_pos hs]
            rw [ih (c :: acc) d inS esc]
            have hc : ¬(d = 1 ∧ d = 0) := by omega
            rw [if_neg hc]
            cases hbe : balancedEnd ⟨d, inS, esc⟩ cs <;>
              simp [hbe, rev_take_shift]
          · rw [if_neg hs, if_neg hs]
            by_cases hl : c = lbrace
            · rw [if_pos hl, if_pos hl]
              rw [ih (c :: acc) (d + 1) inS esc]
              have hc : ¬(d = 1 ∧ d + 1 = 0) := by omega
              rw [if_neg hc]
              cases hbe : balancedEnd ⟨d + 1, inS, esc⟩ cs <;>
                simp [hbe, rev_take_shift]
            · rw [if_neg hl, if_neg hl]
              by_cases hr : c = rbrace
              · rw [if_pos hr, if_pos hr]
                by_cases hd : d - 1 = 0
                · rw [if_pos hd]
                  have hc : d = 1 ∧ d - 1 = 0 := by omega
                  rw [if_pos hc]
                  simp
                · rw [if_neg hd]
                  have hc : ¬(d = 1 ∧ d - 1 = 0) := by omega
                  rw [if_neg hc]
                  rw [ih (c :: acc) (d - 1) inS esc]
                  cases hbe : balancedEnd ⟨d - 1, inS, esc⟩ cs <;>
                    simp [hbe, rev_take_shift]
              · rw [if_neg hr, if_neg hr]
                rw [ih (c :: acc) d inS esc]
                have hc : ¬(d = 1 ∧ d = 0) := by omega
                rw [if_neg hc]
                cases hbe : balancedEnd ⟨d, inS, esc⟩ cs <;>
                  simp [hbe, rev_take_shift]

lemma stage3_eq_specBalanced (raw : List Char) (start : Nat) :
    stage3 raw start = specBalanced (List.drop start raw) := by
  unfold stage3 specBalanced
  rw [scan3_loop_eq]
  cases hbe : balancedEnd ⟨0, false, false⟩ (List.drop start raw) <;> simp [hbe]

lemma jstrEq_unique {v : JVal} {a b : String} (ha : jstrEq v a = true)
    (hb : jstrEq v b = true) : a = b := by
  cases v <;> simp [jstrEq] at ha hb
  subst ha; subst hb; rfl

lemma applyEvent_cursor_eq_pi (ev tn ti tui : JVal) (st : SessionState) :
    applyEvent_cursor ev tn ti tui st = applyEvent_pi ev tn ti tui st := rfl

lemma applyEvent_cursor_session_id (ev tn ti tui : JVal) (st : SessionState) :
    (applyEvent_cursor ev tn ti tui st).session_id = st.session_id := by
  unfold applyEvent_cursor; split_ifs <;> rfl

lemma applyEvent_cursor_transcript (ev tn ti tui : JVal) (st : SessionState) :
    (applyEvent_cursor ev tn ti tui st).transcript_path = st.transcript_path := by
  unfold applyEvent_cursor; split_ifs <;> rfl

lemma applyEvent_pi_session_id (ev tn ti tui : JVal) (st : SessionState) :
    (applyEvent_pi ev tn ti tui st).session_id = st.session_id := by
  unfold applyEvent_pi; split_ifs <;> rfl

/-- The result fields that the event chain controls do not depend on the
incoming state, except through the fields the chain may leave unchanged. -/
lemma applyEvent_pi_agree (ev tn ti tui : JVal) (s1 s2 : SessionState)
    (h1 : s1.tool = s2.tool) (h2 : s1.tool_input = s2.tool_input)
    (h3 : s1.tool_use_id = s2.tool_use_id) (h4 : s1.tool_display = s2.tool_display) :
    (applyEvent_pi ev tn ti tui s1).status = (applyEvent_pi ev tn ti tui s2).status ∧
    (applyEvent_pi ev tn ti tui s1).tool = (applyEvent_pi ev tn ti tui s2).tool ∧
    (applyEvent_pi ev tn ti tui s1).tool_input = (applyEvent_pi ev tn ti tui s2).tool_input ∧
    (applyEvent_pi ev tn ti tui s1).tool_use_id = (applyEvent_pi ev tn ti tui s2).tool_use_id ∧
    (applyEvent_pi ev tn ti tui s1).tool_display = (applyEvent_pi ev tn ti tui s2).tool_display := by
  unfold applyEvent_pi; split_ifs <;> simp_all

lemma pyOr_truthy_right {a b : JVal} (hb : b.truthy = true) : (pyOr a b).truthy = true := by
  unfold pyOr; split_ifs with h
  · exact h
  · exact hb

lemma cursor_sid_truthy (kvs : List (String × JVal)) : (cursor_sid kvs).truthy = true :=
  pyOr_truthy_right (by decide)

lemma pi_sentinel_props (v : JVal) :
    (pi_sentinel v).truthy = true ∧ pi_sentinel v ≠ JVal.str "ephemeral" := by
  unfold pi_sentinel; split_ifs with h
  · refine ⟨by decide, fun hh => ?_⟩
    injection hh with h2
    exact absurd h2 (by decide)
  · simp only [Bool.or_eq_true, Bool.not_eq_true', not_or] at h
    refine ⟨by simpa using h.1, fun hh => ?_⟩
    rw [hh] at h
    exact h.2 (by decide)

lemma normalize_cursor_obj_shape {kvs : List (String × JVal)} {st : SessionState}
    (h : normalize_cursor_obj kvs = Except.ok st) :
    ∃ cwd tp, st = applyEvent_cursor (ev_of kvs) (tn_of kvs) (ti_of kvs) (tui_of kvs)
      (base_state "cursor" (cursor_sid kvs) cwd (ev_of kvs) tp) := by
  unfold normalize_cursor_obj at h
  cases h1 : (if (wr_of kvs).truthy then pySub0 (wr_of kvs) else Except.ok (JVal.str "")) with
  | error e => rw [h1] at h; cases h
  | ok cwd =>
    rw [h1] at h
    cases h2 : cursor_transcript (tp0_of kvs) with
    | error e => rw [h2] at h; cases h
    | ok tp =>
      rw [h2] at h
      simp only [Except.ok.injEq] at h
      exact ⟨cwd, tp, h.symm⟩

lemma normalize_pi_obj_shape {kvs : List (String × JVal)} {st : SessionState}
    (h : normalize_pi_obj kvs = Except.ok st) :
    ∃ (cwd : JVal) (sp : JVal × JVal),
      st = applyEvent_pi (ev_of kvs) (tn_of kvs) (ti_of kvs) (tui_of kvs)
        (base_state "pi" (pi_sentinel sp.1) cwd (ev_of kvs) sp.2) := by
  unfold normalize_pi_obj at h
  cases h1 : (if (cwd0_of kvs).truthy then Except.ok (cwd0_of kvs)
      else if (wr_of kvs).truthy then pySub0 (wr_of kvs) else Except.ok (JVal.str "")) with
  | error e => rw [h1] at h; cases h
  | ok cwd =>
    rw [h1] at h
    cases h2 : pi_session_path (rawsid_of kvs) with
    | error e => rw [h2] at h; cases h
    | ok sp =>
      rw [h2] at h
      simp only [Except.ok.injEq] at h
      exact ⟨cwd, sp, h.symm⟩

lemma applyEvent_cursor_status_table (e : String) (tn ti tui : JVal) (st : SessionState) :
    (applyEvent_cursor (JVal.str e) tn ti tui st).status = statusTable e := by
  simp only [applyEvent_cursor, statusTable, jstrEq, beq_iff_eq]
  split_ifs <;> rfl

lemma applyEvent_cursor_pre (tn ti tui : JVal) (st : SessionState) :
    applyEvent_cursor (JVal.str "preToolUse") tn ti tui st =
      { st with
        status := "running_tool", tool := some tn, tool_input := some ti,
        tool_use_id := if tui.truthy then some tui else none,
        tool_display := if jstrEq tn "Shell" then some "Bash" else none } := by
  unfold applyEvent_cursor
  rw [if_neg (by decide), if_pos (by decide)]

lemma applyEvent_cursor_post (tn ti tui : JVal) (st : SessionState) :
    applyEvent_cursor (JVal.str "postToolUse") tn ti tui st =
      { st with
        status := "processing", tool := some tn, tool_input := some ti,
        tool_use_id := if tui.truthy then some tui else none,
        tool_display := if jstrEq tn "Shell" then some "Bash" else none } := by
  unfold applyEvent_cursor
  rw [if_neg (by decide), if_neg (by decide), if_pos (by decide)]

lemma pySub0_ok_iff {v : JVal} (hv : v.truthy = true) :
    (∃ w, pySub0 v = Except.ok w) ↔ (v.isArr = true ∨ v.isStr = true) := by
  cases v with
  | arr xs =>
    cases xs with
    | nil => simp [JVal.truthy] at hv
    | cons x xs => simp [pySub0, JVal.isArr]
  | str s =>
    have hd : s.data ≠ [] := by
      intro hd
      simp [JVal.truthy, hd] at hv
    cases hds : s.data with
    | nil => exact absurd hds hd
    | cons c cs =>
      constructor
      · intro _; exact Or.inr rfl
      · intro _; exact ⟨JVal.str (String.mk [c]), by simp [pySub0, hds]⟩
  | null => simp [pySub0, JVal.isArr, JVal.isStr]
  | bool b => simp [pySub0, JVal.isArr, JVal.isStr]
  | num m e => simp [pySub0, JVal.isArr, JVal.isStr]
  | fconst k => simp [pySub0, JVal.isArr, JVal.isStr]
  | obj ps => simp [pySub0, JVal.isArr, JVal.isStr]

lemma cursor_transcript_ok_iff (v : JVal) :
    (∃ w, cursor_transcript v = Except.ok w) ↔ (v.truthy = true → v.isStr = true) := by
  unfold cursor_transcript
  by_cases hv : v.truthy = true
  · rw [if_pos hv]
    cases v <;> simp [JVal.isStr, hv] at hv ⊢
  · rw [if_neg hv]
    simp [hv]

lemma pi_session_path_ok_iff (v : JVal) :
    (∃ p, pi_session_path v = Except.ok p) ↔
      (v.truthy = true →
        (v.isStr = true ∨
          ((v.isArr = true ∨ v.isObj = true) ∧ jvalHasSlash v = false))) := by
  unfold pi_session_path
  by_cases hv : v.truthy = true
  · rw [if_pos hv]
    cases v with
    | str s =>
      simp only [pyContains]
      by_cases hb : jvalHasSlash (JVal.str s) = true
      · rw [hb]; simp [JVal.isStr, hv]
      · rw [Bool.of_not_eq_true hb]; simp [JVal.isStr, hv]
    | arr xs =>
      simp only [pyContains]
      by_cases hb : jvalHasSlash (JVal.arr xs) = true
      · rw [hb]; simp [JVal.isStr, JVal.isArr, JVal.isObj, hv, hb]
      · rw [Bool.of_not_eq_true hb]
        simp [JVal.isStr, JVal.isArr, JVal.isObj, hv, Bool.of_not_eq_true hb]
    | obj ps =>
      simp only [pyContains]
      by_cases hb : jvalHasSlash (JVal.obj ps) = true
      · rw [hb]; simp [JVal.isStr, JVal.isArr, JVal.isObj, hv, hb]
      · rw [Bool.of_not_eq_true hb]
        simp [JVal.isStr, JVal.isArr, JVal.isObj, hv, Bool.of_not_eq_true hb]
    | null => simp [JVal.truthy] at hv
    | bool b => simp [pyContains, JVal.isStr, JVal.isArr, JVal.isObj, hv]
    | num m e => simp [pyContains, JVal.isStr, JVal.isArr, JVal.isObj, hv]
    | fconst k => simp [pyContains, JVal.isStr, JVal.isArr, JVal.isObj, hv]
  · rw [if_neg hv]
    simp [hv]

/-! ## Claim theorems -/

/-- C1 (counterexample): for the valid-JSON non-object input `"hi"` both
processes exit 0 with empty stderr but write nothing to standard output:
`main` raises an `AttributeError` on `data.get` and the wrapper catches it
after skipping the `print`, so the claimed two-character literal is not
written. -/
theorem c1_counterexample :
    cursor_run ("\"hi\"".data) = { stdoutLines := [], exitCode := 0, stderr := "" } ∧
    pi_run ("\"hi\"".data) = { stdoutLines := [], exitCode := 0, stderr := "" } ∧
    ([] : List String) ≠ ["\x7b\x7d"] := by
  refine ⟨by decide, by decide, by decide⟩

/-- C1 (amended): every invocation terminates with a success status and
empty standard error, and standard output is either the single line
`\x7b\x7d` or empty; whenever the extractor recovers nothing (in particular
for empty or non-JSON input) the line is written.  Stdout stays empty
exactly when `main` raises, as in the counterexample. -/
theorem c1_wrapper_amended (raw : List Char) :
    (cursor_run raw).exitCode = 0 ∧ (cursor_run raw).stderr = "" ∧
    ((cursor_run raw).stdoutLines = ["\x7b\x7d"] ∨ (cursor_run raw).stdoutLines = []) ∧
    (parse_input raw = none → (cursor_run raw).stdoutLines = ["\x7b\x7d"]) ∧
    (pi_run raw).exitCode = 0 ∧ (pi_run raw).stderr = "" ∧
    ((pi_run raw).stdoutLines = ["\x7b\x7d"] ∨ (pi_run raw).stdoutLines = []) ∧
    (parse_input raw = none → (pi_run raw).stdoutLines = ["\x7b\x7d"]) := by
  have hc : parse_input raw = none → cursor_main raw = Except.ok () := by
    intro hn; unfold cursor_main; rw [hn]
  have hp : parse_input raw = none → pi_main raw = Except.ok () := by
    intro hn; unfold pi_main; rw [hn]
  unfold cursor_run pi_run
  cases hcm : cursor_main raw with
  | ok u =>
    cases hpm : pi_main raw with
    | ok u2 => exact ⟨rfl, rfl, Or.inl rfl, fun _ => rfl, rfl, rfl, Or.inl rfl, fun _ => rfl⟩
    | error e =>
      refine ⟨rfl, rfl, Or.inl rfl, fun _ => rfl, rfl, rfl, Or.inr rfl, fun hn => ?_⟩
      rw [hp hn] at hpm; cases hpm
  | error e =>
    cases hpm : pi_main raw with
    | ok u2 =>
      refine ⟨rfl, rfl, Or.inr rfl, fun hn => ?_, rfl, rfl, Or.inl rfl, fun _ => rfl⟩
      rw [hc hn] at hcm; cases hcm
    | error e2 =>
      refine ⟨rfl, rfl, Or.inr rfl, fun hn => ?_, rfl, rfl, Or.inr rfl, fun hn => ?_⟩
      · rw [hc hn] at hcm; cases hcm
      · rw [hp hn] at hpm; cases hpm

/-- C2 (counterexample): the whole valid-JSON input `"hi"` direct-parses to
the string value `hi`, which `parse_input` returns as is, even though it is
neither a JSON object nor the no-object result. -/
theorem c2_counterexample :
    parse_input ("\"hi\"".data) = some (JVal.str "hi") ∧
    (JVal.str "hi").isObj = false ∧
    some (JVal.str "hi") ≠ (none : Option JVal) := by
  refine ⟨rfl, rfl, by simp⟩

/-- C2 (amended): for every input string `parse_input` terminates and
returns the direct parse of the whole input whenever that parse succeeds,
whatever the value (so valid-JSON strings, numbers, booleans and arrays are
returned as is, and a parsed `null` coincides with the no-object result);
only when the direct parse fails do the fallback strategies run, and they
can produce only objects. -/
theorem c2_extractor_amended (raw : List Char) :
    (∀ v, json_loads raw = some v → parse_input raw = some v) ∧
    (json_loads raw = none → ∀ v, parse_input raw = some v → v.isObj = true) := by
  constructor
  · intro v h; unfold parse_input; rw [h]
  · intro h0 v hv
    unfold parse_input at hv
    rw [h0] at hv
    dsimp only at hv
    cases hf : firstIdx raw lbrace with
    | none => rw [hf] at hv; cases hv
    | some start =>
      rw [hf] at hv
      dsimp only at hv
      cases h2 : stage2 raw with
      | some w =>
        rw [h2] at hv
        dsimp only at hv
        cases hv
        unfold stage2 at h2
        rw [hf] at h2
        cases hl : lastIdx raw rbrace with
        | none => rw [hl] at h2; cases h2
        | some e =>
          rw [hl] at h2
          dsimp only at h2
          by_cases hse : start < e
          · rw [if_pos hse] at h2
            apply json_loads_lbrace_obj _ h2
            unfold sliceList
            rw [head?_take_pos (by omega)]
            exact firstIdx_head hf
          · rw [if_neg hse] at h2; cases h2
      | none =>
        rw [h2] at hv
        dsimp only at hv
        rw [stage3_eq_specBalanced] at hv
        unfold specBalanced at hv
        cases hbe : balancedEnd ⟨0, false, false⟩ (List.drop start raw) with
        | none => rw [hbe] at hv; cases hv
        | some j =>
          rw [hbe] at hv
          apply json_loads_lbrace_obj _ hv
          rw [head?_take_pos (by omega)]
          exact firstIdx_head hf

/-- C2 (witness): a concrete run through both conjuncts of the amended
extractor theorem. -/
theorem c2_extractor_amended_witness :
    parse_input ("x\x7b\"a\":1\x7d".data) = some (JVal.obj [("a", JVal.num 1 0)]) ∧
    (JVal.obj [("a", JVal.num 1 0)]).isObj = true ∧
    parse_input ("\x7b\"a\":1\x7d".data) = some (JVal.obj [("a", JVal.num 1 0)]) := by
  refine ⟨rfl, ?_, ?_⟩
  · exact (c2_extractor_amended ("x\x7b\"a\":1\x7d".data)).2 rfl _ rfl
  · exact (c2_extractor_amended ("\x7b\"a\":1\x7d".data)).1 _ rfl

/-- C3 (counterexample): a truthy non-list `workspace_roots` (the number 5),
one of the malformed fields the claim says degrades to a default, instead
makes both normalizers raise (`5[0]` is a `TypeError`). -/
theorem c3_counterexample :
    normalize_cursor (JVal.obj [("workspace_roots", JVal.num 5 0)]) = Except.error () ∧
    normalize_pi (JVal.obj [("workspace_roots", JVal.num 5 0)]) = Except.error () := by
  exact ⟨rfl, rfl⟩

/-- C3 (amended): the normalizers return exactly one `SessionState` exactly
when the subscripted or iterated fields are well shaped: for the cursor
profile a truthy `workspace_roots` must be a list or a string and a truthy
`transcript_path` must be a string; for the pi profile the `workspace_roots`
condition is only needed when `cwd` is falsy, and a truthy `session_id`
must be a string, or a list or dict that does not contain `/`.  Any other
missing or malformed field degrades to its default; outside these
conditions the normalizer raises and only the top-level wrapper recovers. -/
theorem c3_normalizer_amended (kvs : List (String × JVal)) :
    ((∃ st, normalize_cursor (JVal.obj kvs) = Except.ok st) ↔
      (((wr_of kvs).truthy = true → ((wr_of kvs).isArr = true ∨ (wr_of kvs).isStr = true)) ∧
       ((tp0_of kvs).truthy = true → (tp0_of kvs).isStr = true))) ∧
    ((∃ st, normalize_pi (JVal.obj kvs) = Except.ok st) ↔
      (((cwd0_of kvs).truthy = false → (wr_of kvs).truthy = true →
          ((wr_of kvs).isArr = true ∨ (wr_of kvs).isStr = true)) ∧
       ((rawsid_of kvs).truthy = true →
          ((rawsid_of kvs).isStr = true ∨
            (((rawsid_of kvs).isArr = true ∨ (rawsid_of kvs).isObj = true) ∧
              jvalHasSlash (rawsid_of kvs) = false))))) := by
  constructor
  · have hsplit : (∃ st, normalize_cursor_obj kvs = Except.ok st) ↔
        ((∃ c, (if (wr_of kvs).truthy then pySub0 (wr_of kvs)
            else Except.ok (JVal.str "")) = Except.ok c) ∧
         (∃ t, cursor_transcript (tp0_of kvs) = Except.ok t)) := by
      constructor
      · rintro ⟨st, h⟩
        unfold normalize_cursor_obj at h
        cases h1 : (if (wr_of kvs).truthy then pySub0 (wr_of kvs)
            else Except.ok (JVal.str "")) with
        | error e => rw [h1] at h; cases h
        | ok c =>
          rw [h1] at h
          cases h2 : cursor_transcript (tp0_of kvs) with
          | error e => rw [h2] at h; cases h
          | ok t => exact ⟨⟨c, rfl⟩, ⟨t, rfl⟩⟩
      · rintro ⟨⟨c, h1⟩, ⟨t, h2⟩⟩
        unfold normalize_cursor_obj
        rw [h1]
        dsimp only
        rw [h2]
        exact ⟨_, rfl⟩
    rw [show (∃ st, normalize_cursor (JVal.obj kvs) = Except.ok st) ↔
        (∃ st, normalize_cursor_obj kvs = Except.ok st) from Iff.rfl]
    rw [hsplit]
    have hwr : (∃ c, (if (wr_of kvs).truthy then pySub0 (wr_of kvs)
        else Except.ok (JVal.str "")) = Except.ok c) ↔
        ((wr_of kvs).truthy = true → ((wr_of kvs).isArr = true ∨ (wr_of kvs).isStr = true)) := by
      by_cases hw : (wr_of kvs).truthy = true
      · rw [if_pos hw]
        rw [pySub0_ok_iff hw]
        simp [hw]
      · rw [if_neg hw]
        simp [hw]
    rw [hwr, cursor_transcript_ok_iff]
  · have hsplit : (∃ st, normalize_pi_obj kvs = Except.ok st) ↔
        ((∃ c, (if (cwd0_of kvs).truthy then Except.ok (cwd0_of kvs)
            else if (wr_of kvs).truthy then pySub0 (wr_of kvs)
            else Except.ok (JVal.str "")) = Except.ok c) ∧
         (∃ p, pi_session_path (rawsid_of kvs) = Except.ok p)) := by
      constructor
      · rintro ⟨st, h⟩
        unfold normalize_pi_obj at h
        cases h1 : (if (cwd0_of kvs).truthy then Except.ok (cwd0_of kvs)
            else if (wr_of kvs).truthy then pySub0 (wr_of kvs)
            else Except.ok (JVal.str "")) with
        | error e => rw [h1] at h; cases h
        | ok c =>
          rw [h1] at h
          cases h2 : pi_session_path (rawsid_of kvs) with
          | error e => rw [h2] at h; cases h
          | ok p => exact ⟨⟨c, rfl⟩, ⟨p, rfl⟩⟩
      · rintro ⟨⟨c, h1⟩, ⟨p, h2⟩⟩
        unfold normalize_pi_obj
        rw [h1]
        dsimp only
        rw [h2]
        exact ⟨_, rfl⟩
    rw [show (∃ st, normalize_pi (JVal.obj kvs) = Except.ok st) ↔
        (∃ st, normalize_pi_obj kvs = Except.ok st) from Iff.rfl]
    rw [hsplit]
    have hcwd : (∃ c, (if (cwd0_of kvs).truthy then Except.ok (cwd0_of kvs)
        else if (wr_of kvs).truthy then pySub0 (wr_of kvs)
        else Except.ok (JVal.str "")) = Except.ok c) ↔
        ((cwd0_of kvs).truthy = false → (wr_of kvs).truthy = true →
          ((wr_of kvs).isArr = true ∨ (wr_of kvs).isStr = true)) := by
      by_cases hcw : (cwd0_of kvs).truthy = true
      · rw [if_pos hcw]
        simp [hcw]
      · rw [if_neg hcw]
        by_cases hw : (wr_of kvs).truthy = true
        · rw [if_pos hw]
          rw [pySub0_ok_iff hw]
          simp [hw, Bool.of_not_eq_true hcw]
        · rw [if_neg hw]
          simp [hw]
    rw [hcwd, pi_session_path_ok_iff]

/-- C4 (counterexample): the raw identifier
`20240101T000000_550e8400-e29b-41d4-a716-446655440000.jsonl` contains no
path separator, so the pi profile leaves it untouched: the output
`session_id` is the whole filename, not the claimed UUID. -/
theorem c4_counterexample :
    normalize_pi (JVal.obj [("session_id",
        JVal.str "20240101T000000_550e8400-e29b-41d4-a716-446655440000.jsonl")]) =
      Except.ok
        { session_id := JVal.str "20240101T000000_550e8400-e29b-41d4-a716-446655440000.jsonl",
          cwd := JVal.str "", event := JVal.str "", agent_type := "pi", status := "unknown",
          transcript_path := none, tool := none, tool_input := none, tool_use_id := none,
          tool_display := none } ∧
    JVal.str "20240101T000000_550e8400-e29b-41d4-a716-446655440000.jsonl" ≠
      JVal.str "550e8400-e29b-41d4-a716-446655440000" := by
  refine ⟨rfl, fun h => ?_⟩
  injection h with h2
  exact absurd h2 (by decide)

/-- C4 (amended): the path-to-identifier rule fires only when the raw
session identifier contains a path separator: a full path whose basename is
`20240101T000000_550e8400-e29b-41d4-a716-446655440000.jsonl` normalizes to
the identifier `550e8400-e29b-41d4-a716-446655440000`, with the full path
exposed as `transcript_path`; the bare filename passes through unchanged. -/
theorem c4_amended :
    normalize_pi (JVal.obj [("session_id",
        JVal.str "/tmp/20240101T000000_550e8400-e29b-41d4-a716-446655440000.jsonl")]) =
      Except.ok
        { session_id := JVal.str "550e8400-e29b-41d4-a716-446655440000",
          cwd := JVal.str "", event := JVal.str "", agent_type := "pi", status := "unknown",
          transcript_path :=
            some (JVal.str "/tmp/20240101T000000_550e8400-e29b-41d4-a716-446655440000.jsonl"),
          tool := none, tool_input := none, tool_use_id := none,
          tool_display := none } := by
  rfl

/-- C5: the status derivation is the total table of the spec: each of the
eight named events maps to its documented status and every other event
string (the empty string included) maps to `unknown`; the `status` key is
unconditionally present (it is a mandatory field of the record both
normalizers construct). -/
theorem c5_status_table :
    (∀ (kvs : List (String × JVal)) (st : SessionState) (e : String),
      normalize_cursor (JVal.obj kvs) = Except.ok st → ev_of kvs = JVal.str e →
      st.status = statusTable e) ∧
    (∀ (kvs : List (String × JVal)) (st : SessionState) (e : String),
      normalize_pi (JVal.obj kvs) = Except.ok st → ev_of kvs = JVal.str e →
      st.status = statusTable e) ∧
    (∀ e : String, e ≠ "beforeSubmitPrompt" → e ≠ "preToolUse" → e ≠ "postToolUse" →
      e ≠ "stop" → e ≠ "subagentStop" → e ≠ "sessionStart" → e ≠ "sessionEnd" →
      e ≠ "preCompact" → statusTable e = "unknown") := by
  refine ⟨?_, ?_, ?_⟩
  · intro kvs st e h he
    obtain ⟨cwd, tp, hst⟩ := normalize_cursor_obj_shape h
    subst hst
    rw [he]
    exact applyEvent_cursor_status_table e _ _ _ _
  · intro kvs st e h he
    obtain ⟨cwd, sp, hst⟩ := normalize_pi_obj_shape h
    subst hst
    rw [he, ← applyEvent_cursor_eq_pi]
    exact applyEvent_cursor_status_table e _ _ _ _
  · intro e h1 h2 h3 h4 h5 h6 h7 h8
    unfold statusTable
    rw [if_neg h1, if_neg h2, if_neg h3, if_neg h4, if_neg h5, if_neg h6, if_neg h7, if_neg h8]

/-- C5 (witness): the `preCompact` event maps to `compacting` on a concrete
payload, and an unknown event string maps to `unknown`. -/
theorem c5_status_table_witness :
    normalize_cursor (JVal.obj [("hook_event_name", JVal.str "preCompact")]) =
      Except.ok
        { session_id := JVal.str "unknown", cwd := JVal.str "",
          event := JVal.str "preCompact", agent_type := "cursor", status := "compacting",
          transcript_path := none, tool := none, tool_input := none, tool_use_id := none,
          tool_display := none } ∧
    "compacting" = statusTable "preCompact" ∧
    statusTable "zzz" = "unknown" := by
  refine ⟨rfl, ?_, ?_⟩
  · exact c5_status_table.1 [("hook_event_name", JVal.str "preCompact")]
      { session_id := JVal.str "unknown", cwd := JVal.str "",
        event := JVal.str "preCompact", agent_type := "cursor", status := "compacting",
        transcript_path := none, tool := none, tool_input := none, tool_use_id := none,
        tool_display := none } "preCompact" rfl rfl
  · exact c5_status_table.2.2 "zzz" (by decide) (by decide) (by decide) (by decide)
      (by decide) (by decide) (by decide) (by decide)

/-- C6: the embedded strategy-3 loop is exactly the depth-balanced scan the
spec describes: starting from the first brace it tracks depth with
string-boundary and escape awareness, and on first returning to depth zero
it parses precisely that prefix, reporting failure with no later candidate
if the parse fails; moreover `parse_input` invokes it at the first brace
index whenever the first two strategies fail. -/
theorem c6_scan_spec :
    (∀ (raw : List Char) (start : Nat),
      stage3 raw start = specBalanced (List.drop start raw)) ∧
    (∀ (raw : List Char) (s : Nat), json_loads raw = none → stage2 raw = none →
      firstIdx raw lbrace = some s → parse_input raw = specBalanced (List.drop s raw)) := by
  refine ⟨fun raw start => stage3_eq_specBalanced raw start, ?_⟩
  intro raw s h0 h2 hf
  unfold parse_input
  rw [h0]
  dsimp only
  rw [hf]
  dsimp only
  rw [h2]
  dsimp only
  exact stage3_eq_specBalanced raw s

/-- C6 (witness): on `\x7b"a":1\x7d\x7d` the direct parse and the
outer-bracket slice both fail, and the balanced scan recovers the leading
object. -/
theorem c6_scan_spec_witness :
    parse_input ("\x7b\"a\":1\x7d\x7d".data) =
      specBalanced (List.drop 0 ("\x7b\"a\":1\x7d\x7d".data)) ∧
    parse_input ("\x7b\"a\":1\x7d\x7d".data) = some (JVal.obj [("a", JVal.num 1 0)]) := by
  refine ⟨c6_scan_spec.2 ("\x7b\"a\":1\x7d\x7d".data) 0 rfl rfl rfl, rfl⟩

/-- C7 (counterexample): the cursor profile has no placeholder-sentinel
check: a `conversation_id` equal to `ephemeral` is emitted as is, where the
claim requires the substitution of `unknown` for every profile. -/
theorem c7_counterexample :
    normalize_cursor (JVal.obj [("conversation_id", JVal.str "ephemeral")]) =
      Except.ok
        { session_id := JVal.str "ephemeral", cwd := JVal.str "", event := JVal.str "",
          agent_type := "cursor", status := "unknown", transcript_path := none,
          tool := none, tool_input := none, tool_use_id := none, tool_display := none } ∧
    JVal.str "ephemeral" ≠ JVal.str "unknown" := by
  refine ⟨rfl, fun h => ?_⟩
  injection h with h2
  exact absurd h2 (by decide)

/-- C7 (amended): in every record either normalizer delivers, `session_id`
is truthy (a falsy resolved identifier becomes the literal `unknown` in both
profiles); the pi profile additionally never emits the `ephemeral`
placeholder, but the cursor profile passes it through, and a truthy
non-string identifier is emitted unchanged. -/
theorem c7_session_id_amended (kvs : List (String × JVal)) (st : SessionState) :
    (normalize_cursor (JVal.obj kvs) = Except.ok st → st.session_id.truthy = true) ∧
    (normalize_pi (JVal.obj kvs) = Except.ok st →
      st.session_id.truthy = true ∧ st.session_id ≠ JVal.str "ephemeral") := by
  constructor
  · intro h
    obtain ⟨cwd, tp, hst⟩ := normalize_cursor_obj_shape h
    subst hst
    rw [applyEvent_cursor_session_id]
    exact cursor_sid_truthy kvs
  · intro h
    obtain ⟨cwd, sp, hst⟩ := normalize_pi_obj_shape h
    subst hst
    rw [applyEvent_pi_session_id]
    exact pi_sentinel_props sp.1

/-- C7 (witness): the empty payload resolves to the `unknown` identifier in
both profiles. -/
theorem c7_session_id_amended_witness :
    normalize_cursor (JVal.obj []) =
      Except.ok
        { session_id := JVal.str "unknown", cwd := JVal.str "", event := JVal.str "",
          agent_type := "cursor", status := "unknown", transcript_path := none,
          tool := none, tool_input := none, tool_use_id := none, tool_display := none } ∧
    (JVal.str "unknown").truthy = true ∧
    JVal.str "unknown" ≠ JVal.str "ephemeral" := by
  refine ⟨rfl, ?_, ?_⟩
  · exact (c7_session_id_amended []
      { session_id := JVal.str "unknown", cwd := JVal.str "", event := JVal.str "",
        agent_type := "cursor", status := "unknown", transcript_path := none,
        tool := none, tool_input := none, tool_use_id := none, tool_display := none }).1 rfl
  · exact ((c7_session_id_amended []
      { session_id := JVal.str "unknown", cwd := JVal.str "", event := JVal.str "",
        agent_type := "pi", status := "unknown", transcript_path := none,
        tool := none, tool_input := none, tool_use_id := none, tool_display := none }).2 rfl).2

/-- C8: `tool_input` resolution: a string value is parsed as nested JSON
with the empty object as default on the empty string or a parse failure,
any non-string passes through unchanged, an absent key defaults to the
empty object, and the two concrete examples of the spec evaluate as
claimed. -/
theorem c8_tool_input :
    (∀ v : JVal, v.isStr = false → resolve_tool_input v = v) ∧
    (∀ kvs : List (String × JVal), jget kvs "tool_input" = none →
      ti_of kvs = JVal.obj []) ∧
    (∀ (s : String) (j : JVal), ¬s = "" → json_loads s.data = some j →
      resolve_tool_input (JVal.str s) = j) ∧
    (∀ s : String, json_loads s.data = none →
      resolve_tool_input (JVal.str s) = JVal.obj []) ∧
    resolve_tool_input (JVal.str "") = JVal.obj [] ∧
    resolve_tool_input (JVal.str "\x7b\"path\":\"/tmp\"\x7d") =
      JVal.obj [("path", JVal.str "/tmp")] := by
  refine ⟨?_, ?_, ?_, ?_, rfl, rfl⟩
  · intro v hv
    cases v <;> simp [JVal.isStr] at hv ⊢ <;> rfl
  · intro kvs h
    unfold ti_of dget
    rw [h]
    rfl
  · intro s j hs hj
    unfold resolve_tool_input
    dsimp only
    rw [if_neg hs, hj]
  · intro s h
    unfold resolve_tool_input
    dsimp only
    by_cases hs : s = ""
    · rw [if_pos hs]
    · rw [if_neg hs, h]

/-- C8 (witness): each hypothesis of the resolution theorem discharged at a
concrete input: a number passes through, an absent key defaults, `[1]`
parses to the array, and the non-JSON string `x` defaults to the empty
object. -/
theorem c8_tool_input_witness :
    resolve_tool_input (JVal.num 7 0) = JVal.num 7 0 ∧
    ti_of [] = JVal.obj [] ∧
    resolve_tool_input (JVal.str "[1]") = JVal.arr [JVal.num 1 0] ∧
    resolve_tool_input (JVal.str "x") = JVal.obj [] := by
  refine ⟨c8_tool_input.1 (JVal.num 7 0) rfl, c8_tool_input.2.1 [] rfl,
    c8_tool_input.2.2.1 "[1]" (JVal.arr [JVal.num 1 0]) (by decide) rfl,
    c8_tool_input.2.2.2.1 "x" rfl⟩

/-- C9: the event-to-status derivation (and the tool-field population that
comes with it) is identical across the two profiles: the two transcribed
event chains are one and the same function, and on any payload both
normalizers accept, the delivered status and tool fields coincide even
though the resolved `session_id`, `cwd` and `transcript_path` may differ. -/
theorem c9_profiles_agree :
    (∀ (ev tn ti tui : JVal) (st : SessionState),
      applyEvent_cursor ev tn ti tui st = applyEvent_pi ev tn ti tui st) ∧
    (∀ (kvs : List (String × JVal)) (stc stp : SessionState),
      normalize_cursor (JVal.obj kvs) = Except.ok stc →
      normalize_pi (JVal.obj kvs) = Except.ok stp →
      stc.status = stp.status ∧ stc.tool = stp.tool ∧
      stc.tool_input = stp.tool_input ∧ stc.tool_use_id = stp.tool_use_id ∧
      stc.tool_display = stp.tool_display) := by
  refine ⟨applyEvent_cursor_eq_pi, ?_⟩
  intro kvs stc stp hc hp
  obtain ⟨cwd1, tp1, h1⟩ := normalize_cursor_obj_shape hc
  obtain ⟨cwd2, sp2, h2⟩ := normalize_pi_obj_shape hp
  subst h1
  subst h2
  rw [applyEvent_cursor_eq_pi]
  exact applyEvent_pi_agree _ _ _ _ _ _ rfl rfl rfl rfl

/-- C9 (witness): a concrete `preToolUse` payload on which both profiles
deliver the same status `running_tool` and the same tool fields. -/
theorem c9_profiles_agree_witness :
    normalize_cursor (JVal.obj [("hook_event_name", JVal.str "preToolUse"),
        ("tool_name", JVal.str "Shell")]) =
      Except.ok
        { session_id := JVal.str "unknown", cwd := JVal.str "",
          event := JVal.str "preToolUse", agent_type := "cursor", status := "running_tool",
          transcript_path := none, tool := some (JVal.str "Shell"),
          tool_input := some (JVal.obj []), tool_use_id := none,
          tool_display := some "Bash" } ∧
    normalize_pi (JVal.obj [("hook_event_name", JVal.str "preToolUse"),
        ("tool_name", JVal.str "Shell")]) =
      Except.ok
        { session_id := JVal.str "unknown", cwd := JVal.str "",
          event := JVal.str "preToolUse", agent_type := "pi", status := "running_tool",
          transcript_path := none, tool := some (JVal.str "Shell"),
          tool_input := some (JVal.obj []), tool_use_id := none,
          tool_display := some "Bash" } ∧
    ("running_tool" = "running_tool" ∧ some (JVal.str "Shell") = some (JVal.str "Shell") ∧
      some (JVal.obj []) = some (JVal.obj []) ∧ (none : Option JVal) = none ∧
      some "Bash" = some "Bash") := by
  refine ⟨rfl, rfl, ?_⟩
  exact c9_profiles_agree.2 [("hook_event_name", JVal.str "preToolUse"),
      ("tool_name", JVal.str "Shell")]
    { session_id := JVal.str "unknown", cwd := JVal.str "",
      event := JVal.str "preToolUse", agent_type := "cursor", status := "running_tool",
      transcript_path := none, tool := some (JVal.str "Shell"),
      tool_input := some (JVal.obj []), tool_use_id := none, tool_display := some "Bash" }
    { session_id := JVal.str "unknown", cwd := JVal.str "",
      event := JVal.str "preToolUse", agent_type := "pi", status := "running_tool",
      transcript_path := none, tool := some (JVal.str "Shell"),
      tool_input := some (JVal.obj []), tool_use_id := none, tool_display := some "Bash" }
    rfl rfl

/-- C10: on a `preToolUse` or `postToolUse` payload without a `tool_name`
key, the delivered record still contains the `tool` key, with value `None`
(neither omitted nor a string), `tool_input` is still populated, and
`tool_display` is never set. -/
theorem c10_null_tool (kvs : List (String × JVal)) (st : SessionState)
    (hnm : jget kvs "tool_name" = none)
    (hev : ev_of kvs = JVal.str "preToolUse" ∨ ev_of kvs = JVal.str "postToolUse") :
    (normalize_cursor (JVal.obj kvs) = Except.ok st →
      st.tool = some JVal.null ∧ st.tool_input = some (ti_of kvs) ∧
      st.tool_display = none) ∧
    (normalize_pi (JVal.obj kvs) = Except.ok st →
      st.tool = some JVal.null ∧ st.tool_input = some (ti_of kvs) ∧
      st.tool_display = none) := by
  have htn : tn_of kvs = JVal.null := by
    unfold tn_of dget
    rw [hnm]
    rfl
  constructor
  · intro h
    obtain ⟨cwd, tp, hst⟩ := normalize_cursor_obj_shape h
    subst hst
    rcases hev with he | he <;> rw [he]
    · rw [applyEvent_cursor_pre]
      refine ⟨by rw [htn], rfl, ?_⟩
      simp [htn, jstrEq]
    · rw [applyEvent_cursor_post]
      refine ⟨by rw [htn], rfl, ?_⟩
      simp [htn, jstrEq]
  · intro h
    obtain ⟨cwd, sp, hst⟩ := normalize_pi_obj_shape h
    subst hst
    rcases hev with he | he <;> rw [he, ← applyEvent_cursor_eq_pi]
    · rw [applyEvent_cursor_pre]
      refine ⟨by rw [htn], rfl, ?_⟩
      simp [htn, jstrEq]
    · rw [applyEvent_cursor_post]
      refine ⟨by rw [htn], rfl, ?_⟩
      simp [htn, jstrEq]

/-- C10 (witness): a concrete `preToolUse` payload without `tool_name`. -/
theorem c10_null_tool_witness :
    normalize_cursor (JVal.obj [("hook_event_name", JVal.str "preToolUse")]) =
      Except.ok
        { session_id := JVal.str "unknown", cwd := JVal.str "",
          event := JVal.str "preToolUse", agent_type := "cursor", status := "running_tool",
          transcript_path := none, tool := some JVal.null,
          tool_input := some (JVal.obj []), tool_use_id := none, tool_display := none } ∧
    (some JVal.null = some JVal.null ∧
      some (JVal.obj []) = some (ti_of [("hook_event_name", JVal.str "preToolUse")]) ∧
      (none : Option String) = none) := by
  refine ⟨rfl, ?_⟩
  have h := (c10_null_tool [("hook_event_name", JVal.str "preToolUse")]
    { session_id := JVal.str "unknown", cwd := JVal.str "",
      event := JVal.str "preToolUse", agent_type := "cursor", status := "running_tool",
      transcript_path := none, tool := some JVal.null,
      tool_input := some (JVal.obj []), tool_use_id := none, tool_display := none }
    rfl (Or.inl rfl)).1 rfl
  exact ⟨h.1, h.2.1.symm, h.2.2⟩
